import Mathlib

/-! Verification of the bbpy Blackboard client (`src/blackboard/auth.py`,
`src/blackboard/client.py`, `src/blackboard/exceptions.py`).

Python strings are modelled as lists of characters (`Str`); Python's
`sep in s`, `s.split(sep)`, `s.upper()`, `s.lower()` and `s.strip()` are
embedded below.  Numbers are modelled as exact rationals and Python's
2-digit `round` as round-half-to-even on rationals. -/

set_option autoImplicit false

namespace BBpy



/-- Character-list strings, the carrier for all Python string manipulation. -/
abbrev Str := List Char

/-- Python substring test `sep in s`. -/
def occursB (sep : Str) : Str → Bool
  | [] => sep.isEmpty
  | c :: rest => sep.isPrefixOf (c :: rest) || occursB sep rest

/-- Fuel-indexed worker for `pySplit`.  The fuel is an upper bound on the
length of the string being split, so the `0` fallback row is never reached
from `pySplit`.  On a match the scan jumps past the separator, exactly like
Python's non-overlapping `str.split`. -/
def pySplitF (sep : Str) : Nat → Str → List Str
  | _, [] => [[]]
  | 0, s => [s]
  | fuel + 1, c :: rest =>
    if !sep.isEmpty && sep.isPrefixOf (c :: rest) then
      [] :: pySplitF sep fuel ((c :: rest).drop sep.length)
    else
      match pySplitF sep fuel rest with
      | [] => [[c]]
      | f :: fs => (c :: f) :: fs

/-- Python `s.split(sep)` for a non-empty separator. -/
def pySplit (sep s : Str) : List Str :=
  pySplitF sep s.length s

/-- Query tokens used by the pagination walker and the course-name parser. -/
def offsetTok : Str := "offset=".toList

def ampTok : Str := "&".toList

def dunder : Str := "__".toList

/-- Embedding of the offset extraction of `_get_paginated` and
`_get_paginated_v2` (src/blackboard/client.py lines 257-259 and 318-320):
`next_page.split("offset=")[-1].split("&")[0]`. -/
def extractOffset (np : Str) : Str :=
  (pySplit ampTok ((pySplit offsetTok np).getLastD [])).headD []

/-- Result record of `parse_course_info`. -/
structure ParsedCourseInfo where
  name : Str
  course_id : Str
  class_name : Option Str
  deriving DecidableEq

/-- Embedding of `parse_course_info` (src/blackboard/auth.py lines 22-53):
split the course name on `"__"`, take fragment 0 as the clean name and
fragment 1 (when the split has more than one fragment) as the class name;
take fragment 0 of the id split as the clean id. -/
def parse_course_info (course_name course_id : Str) : ParsedCourseInfo :=
  let pair :=
    if occursB dunder course_name then
      let parts := pySplit dunder course_name
      (parts.headD [], if 1 < parts.length then some (parts.getD 1 []) else none)
    else
      (course_name, none)
  let clean_id :=
    if occursB dunder course_id then (pySplit dunder course_id).headD [] else course_id
  { name := pair.1, course_id := clean_id, class_name := pair.2 }

/-- One page response of a paginated listing endpoint: its `results` array
and the optional `paging.nextPage` URL. -/
structure Page (α : Type) where
  results : List α
  nextPage : Option Str

/-- Embedding of the `while` loop of `_get_paginated`
(src/blackboard/client.py lines 229-263).  The input list is the sequence of
page responses the server returns to the successive requests; the output is
the accumulated `results` together with the sequence of `offset` parameters
sent with the second and later requests. -/
def get_paginated {α : Type} : List (Page α) → List α × List Str
  | [] => ([], [])
  | pg :: rest =>
    match pg.nextPage with
    | none => (pg.results, [])
    | some np =>
      if occursB offsetTok np then
        let nxt := get_paginated rest
        (pg.results ++ nxt.1, extractOffset np :: nxt.2)
      else
        (pg.results, [])

/-- Embedding of the `while` loop of `_get_paginated_v2`
(src/blackboard/client.py lines 292-324); apart from the base path of the
issued requests the source is identical to `_get_paginated`. -/
def get_paginated_v2 {α : Type} : List (Page α) → List α × List Str
  | [] => ([], [])
  | pg :: rest =>
    match pg.nextPage with
    | none => (pg.results, [])
    | some np =>
      if occursB offsetTok np then
        let nxt := get_paginated_v2 rest
        (pg.results ++ nxt.1, extractOffset np :: nxt.2)
      else
        (pg.results, [])

/-- A page keeps the walker going iff `nextPage` is present and contains an
`offset=` token. -/
def continuesPage {α : Type} (pg : Page α) : Bool :=
  match pg.nextPage with
  | none => false
  | some np => occursB offsetTok np

/-- A response trace is well formed for the walker when every page except
the last keeps it going and the last one stops it. -/
def wfTrace {α : Type} : List (Page α) → Bool
  | [] => false
  | [pg] => !continuesPage pg
  | pg :: rest => continuesPage pg && wfTrace rest

/-- Python truthiness of a possibly-missing string value. -/
def truthyOptStr : Option Str → Bool
  | none => false
  | some s => !s.isEmpty

/-- Python `str.lower`. -/
def strLower (s : Str) : Str :=
  s.map Char.toLower

/-- Python `str.upper`. -/
def strUpper (s : Str) : Str :=
  s.map Char.toUpper

/-- Python `str.strip`. -/
def pyStrip (s : Str) : Str :=
  ((s.dropWhile Char.isWhitespace).reverse.dropWhile Char.isWhitespace).reverse

/-- Rounding to an integer with ties to even, as Python `round` does. -/
def roundHalfEven (q : ℚ) : ℤ :=
  let f : ℤ := q.floor
  let r : ℚ := q - (f : ℚ)
  if r < 1 / 2 then f
  else if 1 / 2 < r then f + 1
  else if f % 2 = 0 then f else f + 1

/-- Python `round(x, 2)` on exact rationals. -/
def pyRound2 (q : ℚ) : ℚ :=
  ((roundHalfEven (q * 100) : ℤ) : ℚ) / 100

/-- Embedding of `BBAPIError` (src/blackboard/exceptions.py lines 16-22). -/
structure BBAPIError where
  message : Str
  status_code : Option ℤ
  response : Option Str
  deriving DecidableEq

/-- Fields read from a grade record of the per-column grade endpoint. -/
structure GradeRec where
  status : Option Str
  score : Option ℚ

/-- Fields read from the `grading` sub-object of a gradebook column. -/
structure GradingRec where
  type : Option Str
  due : Option Str

/-- Fields read from the `score` sub-object of a gradebook column. -/
structure ScoreRec where
  possible : Option ℚ

/-- Fields read from a gradebook column object (v2 API). -/
structure ColumnRec where
  id : Option Str
  name : Option Str
  grading : Option GradingRec
  score : Option ScoreRec
  contentId : Option Str

/-- Fields read from the `contentHandler` sub-object of a content item. -/
structure HandlerRec where
  isLateAttemptCreationDisallowed : Option Bool

/-- Fields read from a content item. -/
structure ContentRec where
  contentHandler : Option HandlerRec

/-- One course entry of the cached `.id` data (`courses` list); as written
by `save_id_file` and read back by the client loops. -/
structure CachedCourse where
  name : Option Str
  course_id : Option Str
  internal_id : Option Str
  url : Option Str
  professors : List Str

/-- Cached `.id` data as consumed by the client aggregation loops. -/
structure CachedData where
  courses : List CachedCourse

/-- The remote sub-fetches performed by the assignment and attendance
aggregation, abstracted as functions of the request parameters, always for
the current user.  `duePast d` models parsing the due timestamp `d` and
comparing it with the current time (`datetime.fromisoformat` plus
`datetime.now`): `none` models a parse failure, `some b` a successful parse
with comparison outcome `b`.  `courseAttendance` models
`_get_course_attendance`, which never raises, as the list of the `status`
values of the records it returns (`none` for a record without the key). -/
structure ClientEnv where
  getGradebookColumnsV2 : Str → Except BBAPIError (List ColumnRec)
  getGrade : Str → Option Str → Except BBAPIError GradeRec
  getContent : Str → Str → Except BBAPIError ContentRec
  duePast : Str → Option Bool
  courseAttendance : Str → List (Option Str)

/-- Assignment record built by `get_course_assignments`
(src/blackboard/client.py lines 436-451). -/
structure AssignmentRec where
  id : Option Str
  content_id : Option Str
  name : Str
  course_id : Str
  course_name : Option Str
  due : Option Str
  score_possible : Option ℚ
  score : Option ℚ
  status : Str
  submitted : Bool
  graded : Bool
  is_past_due : Bool
  accepts_late : Bool
  grading_type : Str

/-- Course-name resolution of `get_course_assignments`
(src/blackboard/client.py lines 360-366): the name of the first cached
course whose truthy `course_id` is a substring of the queried course id. -/
def resolveCourseName (cached : Option CachedData) (course_id : Str) : Option Str :=
  match cached with
  | none => none
  | some cd =>
    (cd.courses.find? (fun c =>
      truthyOptStr c.course_id && occursB (c.course_id.getD []) course_id)).bind
      (fun c => c.name)

/-- Per-column processing of `get_course_assignments`
(src/blackboard/client.py lines 368-453); `none` models the `continue` that
skips `Calculated` columns.  The tuple built from the grade fetch is
(score, status, graded, submitted). -/
def processColumn (env : ClientEnv) (course_name : Option Str) (course_id : Str)
    (column : ColumnRec) : Option AssignmentRec :=
  let grading_type := (column.grading.bind (fun g => g.type)).getD ("Manual".toList)
  if grading_type = "Calculated".toList then none
  else
    let due := column.grading.bind (fun g => g.due)
    let is_past_due :=
      match due with
      | none => false
      | some d => if d.isEmpty then false else (env.duePast d).getD false
    let gr :=
      match env.getGrade course_id column.id with
      | .error _ => ((none : Option ℚ), "NotSubmitted".toList, false, false)
      | .ok g =>
        if g.status == some ("Graded".toList) then (g.score, "Graded".toList, true, true)
        else if g.status == some ("NeedsGrading".toList) then
          (g.score, "Submitted".toList, false, true)
        else if truthyOptStr g.status then (g.score, g.status.getD [], false, true)
        else if g.score.isSome then (g.score, "Graded".toList, true, true)
        else (g.score, "NotSubmitted".toList, false, false)
    let content_id := column.contentId
    let accepts_late :=
      if truthyOptStr content_id then
        match env.getContent course_id (content_id.getD []) with
        | .error _ => true
        | .ok content =>
          !((content.contentHandler.bind
              (fun h => h.isLateAttemptCreationDisallowed)).getD false)
      else true
    some {
      id := column.id
      content_id := content_id
      name := column.name.getD ("Unknown".toList)
      course_id := course_id
      course_name := course_name
      due := due
      score_possible := column.score.bind (fun s => s.possible)
      score := gr.1
      status := gr.2.1
      submitted := gr.2.2.2
      graded := gr.2.2.1
      is_past_due := is_past_due
      accepts_late := accepts_late
      grading_type := grading_type }

/-- Embedding of `get_course_assignments` (src/blackboard/client.py lines
326-455): on an APIError from the gradebook column listing the function
returns `[]`; otherwise it maps the per-column processing over the columns
in order. -/
def get_course_assignments (env : ClientEnv) (cached : Option CachedData)
    (course_id : Str) : List AssignmentRec :=
  match env.getGradebookColumnsV2 course_id with
  | .error _ => []
  | .ok columns =>
    let course_name := resolveCourseName cached course_id
    columns.filterMap (processColumn env course_name course_id)

/-- Classification buckets of `get_course_assignment_stats`. -/
inductive Bucket
  | on_time
  | late
  | missed
  | available
  deriving DecidableEq

/-- The branch structure of the classification loop of
`get_course_assignment_stats` (src/blackboard/client.py lines 772-796), as
a function returning the chosen bucket. -/
def classifyAssignment (submitted is_past_due accepts_late graded : Bool)
    (score : Option ℚ) : Bucket :=
  if graded && (score == some 0) then .missed
  else if submitted then
    if !is_past_due then .on_time else .late
  else if is_past_due && !accepts_late then .missed
  else .available

/-- The spec's priority list for per-assignment classification (spec §4.5),
written in its stated order with first match winning. -/
def specClassify (submitted is_past_due accepts_late graded : Bool)
    (score : Option ℚ) : Bucket :=
  if graded = true ∧ score = some 0 then .missed
  else if submitted = true ∧ is_past_due = false then .on_time
  else if submitted = true ∧ is_past_due = true then .late
  else if submitted = false ∧ is_past_due = true ∧ accepts_late = false then .missed
  else .available

/-- Counters of the classification loop of `get_course_assignment_stats`. -/
structure AssignmentCounts where
  on_time : ℕ
  late : ℕ
  missed : ℕ
  available : ℕ

/-- Loop body of `get_course_assignment_stats`
(src/blackboard/client.py lines 772-796). -/
def tallyAssignment (c : AssignmentCounts) (a : AssignmentRec) : AssignmentCounts :=
  if a.graded && (a.score == some 0) then { c with missed := c.missed + 1 }
  else if a.submitted then
    if !a.is_past_due then { c with on_time := c.on_time + 1 }
    else { c with late := c.late + 1 }
  else if a.is_past_due && !a.accepts_late then { c with missed := c.missed + 1 }
  else { c with available := c.available + 1 }

/-- Result record of `get_course_assignment_stats`. -/
structure CourseStatsOut where
  course_id : Str
  course_name : Option Str
  total : ℕ
  on_time : ℕ
  late : ℕ
  missed : ℕ
  available : ℕ
  on_time_rate : ℚ

/-- Embedding of `get_course_assignment_stats` (src/blackboard/client.py
lines 748-816). -/
def get_course_assignment_stats (env : ClientEnv) (cached : Option CachedData)
    (course_id : Str) : CourseStatsOut :=
  let assignments := get_course_assignments env cached course_id
  let total := assignments.length
  let c := assignments.foldl tallyAssignment ⟨0, 0, 0, 0⟩
  let on_time_rate := if 0 < total then (c.on_time : ℚ) / (total : ℚ) else 0
  let course_name :=
    (assignments.find? (fun a => truthyOptStr a.course_name)).bind
      (fun a => a.course_name)
  { course_id := course_id, course_name := course_name, total := total,
    on_time := c.on_time, late := c.late, missed := c.missed,
    available := c.available, on_time_rate := pyRound2 on_time_rate }

/-- Loop body of `get_assignments` (src/blackboard/client.py lines 475-494):
skip cached courses without a truthy `internal_id`, fetch the course's
assignments, fill a missing `course_name` from the cached course, append.
The `except BBAPIError: continue` of the source is unreachable here because
the embedded callee is total (every sub-fetch failure is already handled
inside it). -/
def get_assignments_step (env : ClientEnv) (cached : Option CachedData)
    (acc : List AssignmentRec) (c : CachedCourse) : List AssignmentRec :=
  if truthyOptStr c.internal_id then
    let course_assignments := get_course_assignments env cached (c.internal_id.getD [])
    let course_assignments := course_assignments.map (fun a =>
      if truthyOptStr a.course_name then a else { a with course_name := c.name })
    acc ++ course_assignments
  else acc

/-- The iteration of `get_assignments` over an explicit course list. -/
def get_assignments_loop (env : ClientEnv) (cached : Option CachedData)
    (courses : List CachedCourse) : List AssignmentRec :=
  courses.foldl (get_assignments_step env cached) []

/-- Embedding of `get_assignments` (src/blackboard/client.py lines 457-496). -/
def get_assignments (env : ClientEnv) (cached : Option CachedData) :
    List AssignmentRec :=
  match cached with
  | none => []
  | some cd => get_assignments_loop env cached cd.courses

/-- Aggregate record of `get_assignment_stats`; the `cached`-absent early
return of the source carries only `courses` and `on_time_rate`, modelled
here with zero counters. -/
structure OverallAssignStats where
  courses : List CourseStatsOut
  total : ℕ
  on_time : ℕ
  late : ℕ
  missed : ℕ
  available : ℕ
  on_time_rate : ℚ

/-- Loop body of `get_assignment_stats` (src/blackboard/client.py lines
836-852); the `except BBAPIError: continue` of the source is unreachable
here because the embedded callee is total. -/
def assignment_stats_step (env : ClientEnv) (cached : Option CachedData)
    (st : OverallAssignStats) (course : CachedCourse) : OverallAssignStats :=
  if truthyOptStr course.internal_id then
    let stats := get_course_assignment_stats env cached (course.internal_id.getD [])
    let stats := { stats with course_name := course.name }
    { st with
      courses := st.courses ++ [stats]
      total := st.total + stats.total
      on_time := st.on_time + stats.on_time
      late := st.late + stats.late
      missed := st.missed + stats.missed
      available := st.available + stats.available }
  else st

/-- The iteration of `get_assignment_stats` over an explicit course list,
followed by the overall rate computation. -/
def get_assignment_stats_loop (env : ClientEnv) (cached : Option CachedData)
    (courses : List CachedCourse) : OverallAssignStats :=
  let st := courses.foldl (assignment_stats_step env cached) ⟨[], 0, 0, 0, 0, 0, 0⟩
  { st with on_time_rate :=
      pyRound2 (if 0 < st.total then (st.on_time : ℚ) / (st.total : ℚ) else 0) }

/-- Embedding of `get_assignment_stats` (src/blackboard/client.py lines
818-866). -/
def get_assignment_stats (env : ClientEnv) (cached : Option CachedData) :
    OverallAssignStats :=
  match cached with
  | none => ⟨[], 0, 0, 0, 0, 0, 0⟩
  | some cd => get_assignment_stats_loop env cached cd.courses

/-- Embedding of the decision of `is_nerd` (src/blackboard/client.py lines
868-896); the best-effort write-back of the flag into the `.id` file is
persistence, out of the decision. -/
def is_nerd (env : ClientEnv) (cached : Option CachedData) : Bool :=
  decide ((get_assignment_stats env cached).on_time_rate > 0.45)

/-- Present-bucket test of the attendance loop: lower-cased status in
{present, late, excused} (src/blackboard/client.py line 682). -/
def isPresentStatus (status : Option Str) : Bool :=
  let s := strLower (status.getD [])
  s == "present".toList || s == "late".toList || s == "excused".toList

/-- Absent test of the attendance loop (src/blackboard/client.py line 684). -/
def isAbsentStatus (status : Option Str) : Bool :=
  strLower (status.getD []) == "absent".toList

/-- Loop body of `get_course_attendance_percentage`
(src/blackboard/client.py lines 680-686): bump (present, absent). -/
def tallyAttendance (pa : ℕ × ℕ) (status : Option Str) : ℕ × ℕ :=
  if isPresentStatus status then (pa.1 + 1, pa.2)
  else if isAbsentStatus status then (pa.1, pa.2 + 1)
  else pa

/-- Result record of `get_course_attendance_percentage`. -/
structure AttStatsOut where
  course_id : Str
  course_name : Option Str
  present : ℕ
  absent : ℕ
  total : ℕ
  percentage : ℚ

/-- Embedding of `get_course_attendance_percentage`
(src/blackboard/client.py lines 664-705). -/
def get_course_attendance_percentage (env : ClientEnv) (cached : Option CachedData)
    (course_id : Str) : AttStatsOut :=
  let attendance := env.courseAttendance course_id
  let pa := attendance.foldl tallyAttendance (0, 0)
  let total := attendance.length
  let percentage := if 0 < total then (pa.1 : ℚ) / (total : ℚ) * 100 else 0
  let course_name :=
    match cached with
    | none => none
    | some cd =>
      (cd.courses.find? (fun c => decide (c.internal_id = some course_id))).bind
        (fun c => c.name)
  { course_id := course_id, course_name := course_name, present := pa.1,
    absent := pa.2, total := total, percentage := pyRound2 percentage }

/-- Aggregate record of `get_attendance_percentage`. -/
structure OverallAttStats where
  courses : List AttStatsOut
  present : ℕ
  absent : ℕ
  total : ℕ
  percentage : ℚ

/-- Loop body of `get_attendance_percentage` (src/blackboard/client.py
lines 723-734). -/
def attendance_stats_step (env : ClientEnv) (cached : Option CachedData)
    (st : OverallAttStats) (course : CachedCourse) : OverallAttStats :=
  if truthyOptStr course.internal_id then
    let stats := get_course_attendance_percentage env cached (course.internal_id.getD [])
    let stats := { stats with course_name := course.name }
    { st with
      courses := st.courses ++ [stats]
      present := st.present + stats.present
      absent := st.absent + stats.absent
      total := st.total + stats.total }
  else st

/-- The iteration of `get_attendance_percentage` over an explicit course
list, followed by the overall percentage computation. -/
def get_attendance_percentage_loop (env : ClientEnv) (cached : Option CachedData)
    (courses : List CachedCourse) : OverallAttStats :=
  let st := courses.foldl (attendance_stats_step env cached) ⟨[], 0, 0, 0, 0⟩
  { st with percentage :=
      pyRound2 (if 0 < st.total then (st.present : ℚ) / (st.total : ℚ) * 100 else 0) }

/-- Embedding of `get_attendance_percentage` (src/blackboard/client.py
lines 707-746). -/
def get_attendance_percentage (env : ClientEnv) (cached : Option CachedData) :
    OverallAttStats :=
  match cached with
  | none => ⟨[], 0, 0, 0, 0⟩
  | some cd => get_attendance_percentage_loop env cached cd.courses

/-- Embedding of the decision of `is_attending` (src/blackboard/client.py
lines 898-926). -/
def is_attending (env : ClientEnv) (cached : Option CachedData) : Bool :=
  decide ((get_attendance_percentage env cached).percentage > 60)

/-- A generic API error value used by the concrete environments below. -/
def apiErr : BBAPIError :=
  { message := [], status_code := none, response := none }

/-- The APIError raised by a failing gradebook column listing fetch. -/
def colErr : BBAPIError :=
  { message := "API v2 request failed".toList, status_code := some 403, response := none }

/-- Concrete environment whose gradebook column listing fetch fails. -/
def envFail : ClientEnv :=
  { getGradebookColumnsV2 := fun _ => .error colErr
    getGrade := fun _ _ => .error apiErr
    getContent := fun _ _ => .error apiErr
    duePast := fun _ => none
    courseAttendance := fun _ => [] }

/-- Attendance-only environment returning a fixed status list. -/
def mkAttEnv (statuses : List (Option Str)) : ClientEnv :=
  { getGradebookColumnsV2 := fun _ => .error apiErr
    getGrade := fun _ _ => .error apiErr
    getContent := fun _ _ => .error apiErr
    duePast := fun _ => none
    courseAttendance := fun _ => statuses }

/-- A column whose grade fetch succeeds as an on-time graded submission. -/
def colA : ColumnRec :=
  { id := some ("a".toList), name := none, grading := none, score := none, contentId := none }

/-- A column whose grade fetch fails, leaving it not submitted. -/
def colB : ColumnRec :=
  { id := some ("b".toList), name := none, grading := none, score := none, contentId := none }

/-- A graded nonzero grade record. -/
def gradeOk : GradeRec :=
  { status := some ("Graded".toList), score := some 1 }

/-- Environment with `nOn` on-time and `nAvail` available assignments. -/
def mkAssignEnv (nOn nAvail : ℕ) : ClientEnv :=
  { getGradebookColumnsV2 := fun _ =>
      .ok (List.replicate nOn colA ++ List.replicate nAvail colB)
    getGrade := fun _ cid => if cid = some ("a".toList) then .ok gradeOk else .error apiErr
    getContent := fun _ _ => .error apiErr
    duePast := fun _ => none
    courseAttendance := fun _ => [] }

/-- A single cached course used by the concrete threshold instances. -/
def courseOne : CachedCourse :=
  { name := some ("C1".toList)
    course_id := some ("C1".toList)
    internal_id := some ("_1_1".toList)
    url := none
    professors := [] }

/-- Cached data holding the single course above. -/
def cdOne : CachedData :=
  { courses := [courseOne] }

/-- Python dict assignment `d[k] = v` on a JSON object modelled as an
ordered association list with unique keys: replace the value in place when
the key exists, else append at the end. -/
def dictSet {V : Type} : List (String × V) → String → V → List (String × V)
  | [], k, v => [(k, v)]
  | kv :: rest, k, v => if kv.1 = k then (k, v) :: rest else kv :: dictSet rest k v

/-- Embedding of `update_id_file_cookies` (src/blackboard/auth.py lines
170-210): the loaded JSON object with only `cookies` and `updated_at`
reassigned before the rewrite.  `cookies` stands for the list built from
the session and `ts` for `datetime.now().isoformat()`. -/
def update_id_file_cookies {V : Type} (id_data : List (String × V)) (cookies ts : V) :
    List (String × V) :=
  dictSet (dictSet id_data "cookies" cookies) "updated_at" ts

/-- One cookie entry written to the `.id` file. -/
structure CookieRec where
  name : Str
  value : Str
  domain : Str
  path : Str

/-- The `name` sub-object of a user or instructor record. -/
structure NameRec where
  given : Option Str
  family : Option Str

/-- The `contact` sub-object of a user record. -/
structure ContactRec where
  email : Option Str

/-- Fields of the API user record consumed by `save_id_file`. -/
structure UserData where
  name : Option NameRec
  userName : Option Str
  contact : Option ContactRec

/-- Fields of an enrolled-course record consumed by `save_id_file`. -/
structure CourseInput where
  name : Option Str
  courseId : Option Str
  id : Option Str
  externalAccessUrl : Option Str

/-- The `course` sub-object attached to an instructor record. -/
structure CourseInfoRec where
  name : Option Str

/-- Fields of an instructor record consumed by `save_id_file`. -/
structure InstructorInput where
  course : Option CourseInfoRec
  name : Option NameRec

/-- The `credentials` block of the `.id` file. -/
structure CredRec where
  username : Option Str
  password : Option Str
  deriving DecidableEq

/-- The `user` block of the `.id` file; `classLabel` models the JSON key
`"class"`, which is a reserved word here. -/
structure UserRec where
  name : Str
  username : Str
  email : Str
  classLabel : Option Str

/-- The JSON object written by `save_id_file`; an absent `credentials` key
(deleted when no credentials were built) is modelled as `none`. -/
structure IdData where
  generated_at : Str
  cookies : List CookieRec
  credentials : Option CredRec
  user : UserRec
  courses : List CachedCourse
  isNerd : Option Bool
  isAttending : Option Bool
  on_time_rate : Option ℚ
  attendance_percentage : Option ℚ

/-- Python `a or b` on strings. -/
def pyOrStr (a b : Str) : Str :=
  if a.isEmpty then b else a

/-- Dict-building loop body of `save_id_file` (src/blackboard/auth.py lines
104-115): group professor names by full course name, insertion ordered,
skipping empty and duplicate names. -/
def instructorLookupStep (lk : List (Str × List Str)) (inst : InstructorInput) :
    List (Str × List Str) :=
  let cname := (inst.course.bind (fun c => c.name)).getD []
  let nmo := inst.name.getD { given := none, family := none }
  let prof := pyStrip ((nmo.given.getD []) ++ (" ".toList) ++ (nmo.family.getD []))
  let lk2 := if (lk.lookup cname).isSome then lk else lk ++ [(cname, [])]
  if !prof.isEmpty && !((lk2.lookup cname).getD []).contains prof then
    lk2.map (fun kv => if kv.1 = cname then (kv.1, kv.2 ++ [prof]) else kv)
  else lk2

/-- The instructor lookup table of `save_id_file`. -/
def buildInstructorLookup (instructors : List InstructorInput) : List (Str × List Str) :=
  instructors.foldl instructorLookupStep []

/-- One entry of the `courses` list written by `save_id_file`
(src/blackboard/auth.py lines 118-138). -/
def mkCourseData (lk : List (Str × List Str)) (c : CourseInput) : CachedCourse :=
  let course_name_full := c.name.getD []
  let course_id_full := c.courseId.getD []
  let parsed := parse_course_info course_name_full course_id_full
  { name := some parsed.name
    course_id := some parsed.course_id
    internal_id := c.id
    url := some (c.externalAccessUrl.getD [])
    professors := (lk.lookup course_name_full).getD [] }

/-- Embedding of `save_id_file` (src/blackboard/auth.py lines 56-167).
`now` stands for `datetime.now().isoformat()` and `session` for the cookie
list extracted from the session.  Line 92 of the source reassigns the
`username` parameter to the API user record's `userName` before anything
else reads it, so the parameter is dead after that point. -/
def save_id_file (now : Str) (session : List CookieRec) (user_data : UserData)
    (courses : List CourseInput) (instructors : List InstructorInput)
    (username password : Option Str) : IdData :=
  let name_obj := user_data.name.getD { given := none, family := none }
  let full_name :=
    pyStrip ((name_obj.given.getD []) ++ (" ".toList) ++ (name_obj.family.getD []))
  let username2 := user_data.userName.getD []
  let email := (user_data.contact.bind (fun c => c.email)).getD []
  let class_name :=
    match courses with
    | [] => none
    | first :: _ =>
      let cn := first.name.getD []
      if occursB dunder cn then some ((pySplit dunder cn).getD 1 []) else none
  let lk := buildInstructorLookup instructors
  let courses_data := courses.map (mkCourseData lk)
  let credentials :=
    if !username2.isEmpty && truthyOptStr password then
      some { username := if !username2.isEmpty then some (strUpper username2) else none,
             password := password }
    else none
  { generated_at := now
    cookies := session
    credentials := credentials
    user := { name := full_name
              username := pyOrStr username2 (user_data.userName.getD [])
              email := email
              classLabel := class_name }
    courses := courses_data
    isNerd := none
    isAttending := none
    on_time_rate := none
    attendance_percentage := none }

theorem pySplitF_fuel (sep : Str) : ∀ (n f₁ f₂ : Nat) (s : Str),
    s.length ≤ n → s.length ≤ f₁ → s.length ≤ f₂ →
    pySplitF sep f₁ s = pySplitF sep f₂ s := by
  intro n
  induction n with
  | zero =>
    intro f₁ f₂ s hn _ _
    have hs : s = [] := List.length_eq_zero.mp (Nat.le_zero.mp hn)
    subst hs
    cases f₁ <;> cases f₂ <;> rfl
  | succ n ih =>
    intro f₁ f₂ s hn h1 h2
    cases s with
    | nil => cases f₁ <;> cases f₂ <;> rfl
    | cons c rest =>
      simp only [List.length_cons] at hn h1 h2
      obtain ⟨g₁, rfl⟩ : ∃ g, f₁ = g + 1 := ⟨f₁ - 1, by omega⟩
      obtain ⟨g₂, rfl⟩ : ∃ g, f₂ = g + 1 := ⟨f₂ - 1, by omega⟩
      simp only [pySplitF]
      by_cases hp : (!sep.isEmpty && sep.isPrefixOf (c :: rest)) = true
      · rw [if_pos hp, if_pos hp]
        have hsep : 1 ≤ sep.length := by
          rcases sep with _ | ⟨a, s'⟩
          · simp at hp
          · simp
        have hlen : ((c :: rest).drop sep.length).length ≤ rest.length := by
          simp only [List.length_drop, List.length_cons]
          omega
        rw [ih g₁ g₂ ((c :: rest).drop sep.length) (by omega) (by omega) (by omega)]
      · rw [if_neg hp, if_neg hp]
        rw [ih g₁ g₂ rest (by omega) (by omega) (by omega)]

theorem pySplit_eq_pySplitF (sep : Str) (f : Nat) (s : Str) (h : s.length ≤ f) :
    pySplit sep s = pySplitF sep f s :=
  pySplitF_fuel sep s.length s.length f s le_rfl le_rfl h

/-- A string in which the separator does not occur is returned unsplit. -/
theorem pySplit_of_not_occurs (sep : Str) :
    ∀ s : Str, occursB sep s = false → pySplit sep s = [s] := by
  intro s
  induction s with
  | nil => intro _; rfl
  | cons c rest ih =>
    intro h
    simp only [occursB, Bool.or_eq_false_iff] at h
    obtain ⟨h1, h2⟩ := h
    show pySplitF sep (rest.length + 1) (c :: rest) = [c :: rest]
    have hguard : (!sep.isEmpty && sep.isPrefixOf (c :: rest)) = false := by
      simp [h1]
    simp only [pySplitF, hguard, Bool.false_eq_true, if_false]
    have hrest : pySplitF sep rest.length rest = [rest] := ih h2
    rw [hrest]

/-- Splitting `p ++ sep ++ t` when no occurrence of `sep` starts inside `p`
peels off `p` as the first fragment. -/
theorem pySplit_append (sep : Str) (hsep : sep ≠ []) :
    ∀ (p t : Str), (∀ i < p.length, sep.isPrefixOf ((p ++ sep ++ t).drop i) = false) →
    pySplit sep (p ++ sep ++ t) = p :: pySplit sep t := by
  intro p
  induction p with
  | nil =>
    intro t _
    rcases sep with _ | ⟨c0, sep'⟩
    · exact absurd rfl hsep
    · show pySplitF _ _ _ = _
      simp only [List.nil_append]
      have hshape : (c0 :: sep') ++ t = c0 :: (sep' ++ t) := rfl
      rw [hshape]
      simp only [List.length_cons]
      simp only [pySplitF]
      have hguard : (!(c0 :: sep').isEmpty &&
          (c0 :: sep').isPrefixOf (c0 :: (sep' ++ t))) = true := by
        simp only [List.isEmpty_cons, Bool.not_false, Bool.true_and]
        rw [ List.isPrefixOf_iff_prefix]
        exact List.prefix_append (c0 :: sep') t
      rw [if_pos hguard]
      have hdrop : (c0 :: (sep' ++ t)).drop (c0 :: sep').length = t := by
        rw [← hshape]
        exact List.drop_left (c0 :: sep') t
      rw [hdrop]
      rw [← pySplit_eq_pySplitF (c0 :: sep') (sep' ++ t).length t (by simp)]
  | cons a p' ih =>
    intro t h
    have h0 : sep.isPrefixOf (a :: (p' ++ sep ++ t)) = false := by
      have := h 0 (by simp)
      simpa using this
    show pySplitF sep ((a :: p' ++ sep ++ t).length) (a :: p' ++ sep ++ t) = _
    have hshape : (a :: p') ++ sep ++ t = a :: (p' ++ sep ++ t) := by simp
    rw [hshape]
    simp only [List.length_cons]
    simp only [pySplitF]
    have hguard : (!sep.isEmpty && sep.isPrefixOf (a :: (p' ++ sep ++ t))) = false := by
      rw [h0, Bool.and_false]
    rw [if_neg (by simp only [hguard]; exact Bool.false_ne_true)]
    have hrec : pySplitF sep (p' ++ sep ++ t).length (p' ++ sep ++ t) =
        p' :: pySplit sep t := by
      have hh : ∀ i < p'.length, sep.isPrefixOf ((p' ++ sep ++ t).drop i) = false := by
        intro i hi
        have := h (i + 1) (by simp; omega)
        rw [hshape] at this
        simpa [List.drop_succ_cons] using this
      exact ih t hh
    rw [hrec]

theorem occursB_append_sep (sep : Str) (hsep : sep ≠ []) :
    ∀ (p t : Str), occursB sep (p ++ sep ++ t) = true := by
  intro p
  induction p with
  | nil =>
    intro t
    rcases sep with _ | ⟨c0, sep'⟩
    · exact absurd rfl hsep
    · show occursB _ (c0 :: (sep' ++ t)) = true
      simp only [occursB, Bool.or_eq_true]
      left
      rw [ List.isPrefixOf_iff_prefix]
      exact List.prefix_append (c0 :: sep') t
  | cons a p' ih =>
    intro t
    show occursB sep (a :: (p' ++ sep ++ t)) = true
    simp only [occursB, Bool.or_eq_true]
    right
    exact ih t

theorem not_mem_of_occursB_singleton (a : Char) :
    ∀ s : Str, occursB [a] s = false → a ∉ s := by
  intro s
  induction s with
  | nil => intro _ hm; simp at hm
  | cons c rest ih =>
    intro h hm
    simp only [occursB, Bool.or_eq_false_iff, List.isPrefixOf, Bool.and_eq_false_iff] at h
    obtain ⟨h1, h2⟩ := h
    rcases List.mem_cons.mp hm with rfl | hm2
    · rcases h1 with h1 | h1
      · simp at h1
      · simp [List.isPrefixOf] at h1
    · exact ih h2 hm2

theorem singleton_no_early_occ (a : Char) (v t : Str) (hv : occursB [a] v = false) :
    ∀ i < v.length, ([a] : Str).isPrefixOf ((v ++ [a] ++ t).drop i) = false := by
  intro i hi
  have hmem := not_mem_of_occursB_singleton a v hv
  have hassoc : v ++ [a] ++ t = v ++ ([a] ++ t) := by simp
  rw [hassoc, List.drop_append_eq_append_drop, Nat.sub_eq_zero_of_le (le_of_lt hi),
    List.drop_zero]
  have hne : v.drop i ≠ [] := by
    intro hnil
    have := List.length_drop i v
    rw [hnil] at this
    simp at this
    omega
  obtain ⟨c, cs, hcs⟩ := List.exists_cons_of_ne_nil hne
  rw [hcs]
  have hcv : c ∈ v := List.drop_subset i v (hcs ▸ List.mem_cons_self c cs)
  have hac : (a == c) = false := by
    rcases Bool.eq_false_or_eq_true (a == c) with hb | hb
    · exact absurd (beq_iff_eq.mp hb ▸ hcv) hmem
    · exact hb
  show ([a] : Str).isPrefixOf (c :: (cs ++ ([a] ++ t))) = false
  simp [List.isPrefixOf, hac]

/-- When `offset=` occurs exactly once (no occurrence starts inside the
prefix `p`, none occurs in `v ++ r`), `v` is `&`-free and `r` is empty or
starts with `&`, the extracted offset is exactly the substring between
`offset=` and the next `&` or the end of the string. -/
theorem extractOffset_spec (p v r : Str)
    (hp : ∀ i < p.length, offsetTok.isPrefixOf ((p ++ offsetTok ++ (v ++ r)).drop i) = false)
    (hvr : occursB offsetTok (v ++ r) = false)
    (hv : occursB ampTok v = false)
    (hr : r = [] ∨ ∃ r2, r = '&' :: r2) :
    extractOffset (p ++ offsetTok ++ (v ++ r)) = v := by
  have hsplit1 : pySplit offsetTok (p ++ offsetTok ++ (v ++ r)) =
      p :: pySplit offsetTok (v ++ r) :=
    pySplit_append offsetTok (by decide) p (v ++ r) hp
  have hsplit2 : pySplit offsetTok (v ++ r) = [v ++ r] :=
    pySplit_of_not_occurs offsetTok (v ++ r) hvr
  unfold extractOffset
  rw [hsplit1, hsplit2]
  have hlast : ((p :: [v ++ r]).getLastD []) = v ++ r := rfl
  rw [hlast]
  rcases hr with rfl | ⟨r2, rfl⟩
  · rw [List.append_nil]
    rw [pySplit_of_not_occurs ampTok v hv]
    rfl
  · have hshape : v ++ '&' :: r2 = v ++ ampTok ++ r2 := by
      show v ++ '&' :: r2 = (v ++ ['&']) ++ r2
      simp
    rw [hshape]
    rw [pySplit_append ampTok (by decide) v r2 (singleton_no_early_occ '&' v r2 hv)]
    rfl

/-- C4 counterexample: on a name with two `"__"` separators the section label
is the fragment between the first and the second occurrence, not the entire
remainder after the first occurrence. -/
theorem parse_course_info_counterexample :
    (parse_course_info ("A__B__C".toList) ("X".toList)).class_name = some ("B".toList) ∧
    (parse_course_info ("A__B__C".toList) ("X".toList)).class_name ≠ some ("B__C".toList) := by
  constructor <;> decide

/-- C4 (amended): `parse_course_info` takes the clean name and clean id as the
prefix before the first `"__"`; the section label is the fragment between the
first and second `"__"` (the entire remainder only when no second occurrence
exists); a string without `"__"` parses to itself with a null section. -/
theorem parse_course_info_amended
    (nm0 id0 : Str) (h0 : occursB dunder nm0 = false) (hid0 : occursB dunder id0 = false)
    (p m r : Str)
    (hpm : ∀ i < p.length, dunder.isPrefixOf ((p ++ dunder ++ m).drop i) = false)
    (hm : occursB dunder m = false)
    (hpc : ∀ i < p.length,
      dunder.isPrefixOf ((p ++ dunder ++ (m ++ dunder ++ r)).drop i) = false)
    (hmc : ∀ i < m.length, dunder.isPrefixOf ((m ++ dunder ++ r).drop i) = false) :
    (parse_course_info nm0 id0).name = nm0 ∧
    (parse_course_info nm0 id0).class_name = none ∧
    (parse_course_info nm0 id0).course_id = id0 ∧
    (parse_course_info (p ++ dunder ++ m) id0).name = p ∧
    (parse_course_info (p ++ dunder ++ m) id0).class_name = some m ∧
    (parse_course_info nm0 (p ++ dunder ++ m)).course_id = p ∧
    (parse_course_info (p ++ dunder ++ (m ++ dunder ++ r)) id0).name = p ∧
    (parse_course_info (p ++ dunder ++ (m ++ dunder ++ r)) id0).class_name = some m := by
  have hocc1 : occursB dunder (p ++ dunder ++ m) = true :=
    occursB_append_sep dunder (by decide) p m
  have hocc2 : occursB dunder (p ++ dunder ++ (m ++ dunder ++ r)) = true :=
    occursB_append_sep dunder (by decide) p (m ++ dunder ++ r)
  have hparts1 : pySplit dunder (p ++ dunder ++ m) = [p, m] := by
    rw [pySplit_append dunder (by decide) p m hpm, pySplit_of_not_occurs dunder m hm]
  have hparts2 : pySplit dunder (p ++ dunder ++ (m ++ dunder ++ r)) =
      p :: m :: pySplit dunder r := by
    rw [pySplit_append dunder (by decide) p (m ++ dunder ++ r) hpc,
      pySplit_append dunder (by decide) m r hmc]
  have hocc1' : occursB dunder (p ++ (dunder ++ m)) = true := by
    simpa using hocc1
  have hparts1' : pySplit dunder (p ++ (dunder ++ m)) = [p, m] := by
    simpa using hparts1
  have hocc2' : occursB dunder (p ++ (dunder ++ (m ++ (dunder ++ r)))) = true := by
    simpa using hocc2
  have hparts2' : pySplit dunder (p ++ (dunder ++ (m ++ (dunder ++ r)))) =
      p :: m :: pySplit dunder r := by
    simpa using hparts2
  refine ⟨?_, ?_, ?_, ?_, ?_, ?_, ?_, ?_⟩
  · simp [parse_course_info, h0]
  · simp [parse_course_info, h0]
  · simp [parse_course_info, hid0]
  · simp [parse_course_info, hocc1', hparts1']
  · simp [parse_course_info, hocc1', hparts1']
  · simp [parse_course_info, hocc1', hparts1']
  · simp [parse_course_info, hocc2', hparts2']
  · simp [parse_course_info, hocc2', hparts2']

/-- Witness for the amended C4 claim at the spec's own example strings. -/
theorem parse_course_info_amended_witness :
    (parse_course_info ("Gestion de projet__4SAE11".toList) ("X".toList)).name =
      "Gestion de projet".toList ∧
    (parse_course_info ("Gestion de projet__4SAE11".toList) ("X".toList)).class_name =
      some ("4SAE11".toList) := by
  have heq : "Gestion de projet__4SAE11".toList =
      "Gestion de projet".toList ++ dunder ++ "4SAE11".toList := by decide
  have h := parse_course_info_amended "A".toList "X".toList (by decide) (by decide)
    ("Gestion de projet".toList) ("4SAE11".toList) ("C".toList)
    (by decide) (by decide) (by decide) (by decide)
  rw [heq]
  exact ⟨h.2.2.2.1, h.2.2.2.2.1⟩

theorem get_paginated_cons_none {α : Type} (res : List α) (rest : List (Page α)) :
    get_paginated (Page.mk res none :: rest) = (res, []) := by
  simp [get_paginated]

theorem get_paginated_cons_stop {α : Type} (res : List α) (np : Str)
    (rest : List (Page α)) (hocc : occursB offsetTok np = false) :
    get_paginated (Page.mk res (some np) :: rest) = (res, []) := by
  simp [get_paginated, hocc]

theorem get_paginated_cons_go {α : Type} (res : List α) (np : Str)
    (rest : List (Page α)) (hocc : occursB offsetTok np = true) :
    get_paginated (Page.mk res (some np) :: rest) =
      (res ++ (get_paginated rest).1, extractOffset np :: (get_paginated rest).2) := by
  simp [get_paginated, hocc]

theorem get_paginated_wf {α : Type} : ∀ pages : List (Page α), wfTrace pages = true →
    (get_paginated pages).1 = (pages.map Page.results).flatten ∧
    (get_paginated pages).2 =
      pages.dropLast.map (fun pg => extractOffset (pg.nextPage.getD [])) := by
  intro pages
  induction pages with
  | nil => intro hwf; simp [wfTrace] at hwf
  | cons pg rest ih =>
    intro hwf
    obtain ⟨res, npo⟩ := pg
    cases rest with
    | nil =>
      have hc : continuesPage (Page.mk res npo) = false := by simpa [wfTrace] using hwf
      cases npo with
      | none => simp [get_paginated_cons_none]
      | some np =>
        have hocc : occursB offsetTok np = false := hc
        simp [get_paginated_cons_stop res np [] hocc]
    | cons q qs =>
      have hc : continuesPage (Page.mk res npo) = true ∧ wfTrace (q :: qs) = true := by
        have hrw : wfTrace (Page.mk res npo :: q :: qs) =
            (continuesPage (Page.mk res npo) && wfTrace (q :: qs)) := rfl
        rw [hrw] at hwf
        exact Bool.and_eq_true_iff.mp hwf
      cases npo with
      | none => exact absurd hc.1 Bool.false_ne_true
      | some np =>
        have hocc : occursB offsetTok np = true := hc.1
        have ihh := ih hc.2
        rw [get_paginated_cons_go res np (q :: qs) hocc]
        constructor
        · simp [ihh.1]
        · simp [ihh.2]

/-- C2: on a well-formed response trace the pagination walker returns the
concatenation of the pages' `results` in page order, issues as each next
offset exactly the substring of `nextPage` between `offset=` and the next
`&` or the end of the string, and stops on a page whose `nextPage` is absent
or free of any `offset=` token. -/
theorem get_paginated_claim {α : Type} (pages : List (Page α))
    (hwf : wfTrace pages = true) :
    (get_paginated pages).1 = (pages.map Page.results).flatten ∧
    (get_paginated pages).2 =
      pages.dropLast.map (fun pg => extractOffset (pg.nextPage.getD [])) ∧
    (∀ (pg : Page α) (rest : List (Page α)), pg.nextPage = none →
      get_paginated (pg :: rest) = (pg.results, [])) ∧
    (∀ (pg : Page α) (rest : List (Page α)) (np : Str), pg.nextPage = some np →
      occursB offsetTok np = false → get_paginated (pg :: rest) = (pg.results, [])) ∧
    (∀ (p v r : Str), (∀ i < p.length,
        offsetTok.isPrefixOf ((p ++ offsetTok ++ (v ++ r)).drop i) = false) →
      occursB offsetTok (v ++ r) = false → occursB ampTok v = false →
      (r = [] ∨ ∃ r2, r = '&' :: r2) →
      extractOffset (p ++ offsetTok ++ (v ++ r)) = v) := by
  refine ⟨(get_paginated_wf pages hwf).1, (get_paginated_wf pages hwf).2, ?_, ?_, ?_⟩
  · intro pg rest h
    simp [get_paginated, h]
  · intro pg rest np h hocc
    simp [get_paginated, h, hocc]
  · intro p v r hp hvr hv hr
    exact extractOffset_spec p v r hp hvr hv hr

/-- Witness for C2 on a concrete two-page trace. -/
theorem get_paginated_claim_witness :
    wfTrace [Page.mk [1, 2] (some ("a?offset=6&limit=3".toList)),
      Page.mk ([3] : List Nat) none] = true ∧
    (get_paginated [Page.mk [1, 2] (some ("a?offset=6&limit=3".toList)),
      Page.mk ([3] : List Nat) none]).1 = [1, 2, 3] ∧
    (get_paginated [Page.mk [1, 2] (some ("a?offset=6&limit=3".toList)),
      Page.mk ([3] : List Nat) none]).2 = ["6".toList] ∧
    extractOffset ("a?offset=6&limit=3".toList) = "6".toList := by
  have h := get_paginated_claim
    [Page.mk [1, 2] (some ("a?offset=6&limit=3".toList)), Page.mk ([3] : List Nat) none]
    (by decide)
  refine ⟨by decide, ?_, ?_, ?_⟩
  · rw [h.1]; decide
  · rw [h.2.1]; decide
  · have heq : "a?offset=6&limit=3".toList =
        "a?".toList ++ offsetTok ++ ("6".toList ++ "&limit=3".toList) := by decide
    rw [heq]
    exact h.2.2.2.2 ("a?".toList) ("6".toList) ("&limit=3".toList)
      (by decide) (by decide) (by decide) (Or.inr ⟨"limit=3".toList, by decide⟩)

/-- C8: the v1 and v2 pagination walkers return the same results and issue
the same offset sequence on every response trace. -/
theorem get_paginated_v2_eq {α : Type} : ∀ pages : List (Page α),
    get_paginated pages = get_paginated_v2 pages := by
  intro pages
  induction pages with
  | nil => rfl
  | cons pg rest ih =>
    cases hnp : pg.nextPage with
    | none => simp [get_paginated, get_paginated_v2, hnp]
    | some np =>
      by_cases hocc : occursB offsetTok np = true
      · simp [get_paginated, get_paginated_v2, hnp, hocc, ih]
      · simp only [Bool.not_eq_true] at hocc
        simp [get_paginated, get_paginated_v2, hnp, hocc]

theorem foldl_tally_sum : ∀ (l : List AssignmentRec) (c : AssignmentCounts),
    (l.foldl tallyAssignment c).on_time + (l.foldl tallyAssignment c).late +
      (l.foldl tallyAssignment c).missed + (l.foldl tallyAssignment c).available =
      c.on_time + c.late + c.missed + c.available + l.length := by
  intro l
  induction l with
  | nil => intro c; simp
  | cons a rest ih =>
    intro c
    rw [List.foldl_cons, ih (tallyAssignment c a)]
    have hstep : (tallyAssignment c a).on_time + (tallyAssignment c a).late +
        (tallyAssignment c a).missed + (tallyAssignment c a).available =
        c.on_time + c.late + c.missed + c.available + 1 := by
      unfold tallyAssignment
      split_ifs <;> simp <;> omega
    rw [hstep]
    simp [List.length_cons]
    omega

/-- C1: the per-assignment classification of `get_course_assignment_stats`
is a total function of (submitted, is_past_due, accepts_late, graded,
score): it agrees everywhere with the spec's priority list (first match
wins, graded with score 0 overriding everything), the loop body bumps
exactly the chosen bucket, and the four counters always sum to the number
of assignments, so each assignment lands in exactly one bucket. -/
theorem classification_claim :
    (∀ (submitted is_past_due accepts_late graded : Bool) (score : Option ℚ),
      classifyAssignment submitted is_past_due accepts_late graded score =
        specClassify submitted is_past_due accepts_late graded score) ∧
    (∀ (c : AssignmentCounts) (a : AssignmentRec),
      tallyAssignment c a =
        (match classifyAssignment a.submitted a.is_past_due a.accepts_late
            a.graded a.score with
          | Bucket.on_time => { c with on_time := c.on_time + 1 }
          | Bucket.late => { c with late := c.late + 1 }
          | Bucket.missed => { c with missed := c.missed + 1 }
          | Bucket.available => { c with available := c.available + 1 })) ∧
    (∀ assignments : List AssignmentRec,
      (assignments.foldl tallyAssignment ⟨0, 0, 0, 0⟩).on_time +
        (assignments.foldl tallyAssignment ⟨0, 0, 0, 0⟩).late +
        (assignments.foldl tallyAssignment ⟨0, 0, 0, 0⟩).missed +
        (assignments.foldl tallyAssignment ⟨0, 0, 0, 0⟩).available =
        assignments.length) := by
  refine ⟨?_, ?_, ?_⟩
  · intro submitted is_past_due accepts_late graded score
    by_cases hs : score = some 0
    · cases graded <;> cases submitted <;> cases is_past_due <;> cases accepts_late <;>
        simp [classifyAssignment, specClassify, hs]
    · have hs' : (score == some (0 : ℚ)) = false := beq_eq_false_iff_ne.mpr hs
      cases graded <;> cases submitted <;> cases is_past_due <;> cases accepts_late <;>
        simp [classifyAssignment, specClassify, hs', hs]
  · intro c a
    obtain ⟨i, ci, nm, coi, con, du, sp, sc, stt, sub, gr, ipd, al, gt⟩ := a
    by_cases hs : sc = some 0
    · cases gr <;> cases sub <;> cases ipd <;> cases al <;>
        simp [tallyAssignment, classifyAssignment, hs]
    · have hs' : (sc == some (0 : ℚ)) = false := beq_eq_false_iff_ne.mpr hs
      cases gr <;> cases sub <;> cases ipd <;> cases al <;>
        simp [tallyAssignment, classifyAssignment, hs']
  · intro assignments
    rw [foldl_tally_sum assignments ⟨0, 0, 0, 0⟩]
    simp

theorem foldl_skip_filter {β : Type} (step : β → CachedCourse → β)
    (hstep : ∀ (st : β) (c : CachedCourse),
      truthyOptStr c.internal_id = false → step st c = st) :
    ∀ (courses : List CachedCourse) (init : β),
    courses.foldl step init =
      (courses.filter (fun c => truthyOptStr c.internal_id)).foldl step init := by
  intro courses
  induction courses with
  | nil => intro init; rfl
  | cons c rest ih =>
    intro init
    by_cases hc : truthyOptStr c.internal_id = true
    · simp only [List.filter_cons, hc, if_pos, List.foldl_cons]
      exact ih (step init c)
    · have hc2 : truthyOptStr c.internal_id = false := by
        rcases Bool.eq_false_or_eq_true (truthyOptStr c.internal_id) with hb | hb
        · exact absurd hb hc
        · exact hb
      simp only [List.filter_cons, hc2, Bool.false_eq_true, if_false, List.foldl_cons,
        hstep init c hc2]
      exact ih init

/-- C9: a cached course record without a truthy `internal_id` is inert: the
per-course iterations of `get_assignments`, `get_assignment_stats` and
`get_attendance_percentage` produce exactly the same output as on the list
with such records removed, and (being total functions) never raise. -/
theorem skip_missing_internal_id (env : ClientEnv) (cached : Option CachedData)
    (courses : List CachedCourse) :
    get_assignments_loop env cached courses =
      get_assignments_loop env cached
        (courses.filter (fun c => truthyOptStr c.internal_id)) ∧
    get_assignment_stats_loop env cached courses =
      get_assignment_stats_loop env cached
        (courses.filter (fun c => truthyOptStr c.internal_id)) ∧
    get_attendance_percentage_loop env cached courses =
      get_attendance_percentage_loop env cached
        (courses.filter (fun c => truthyOptStr c.internal_id)) := by
  refine ⟨?_, ?_, ?_⟩
  · unfold get_assignments_loop
    rw [foldl_skip_filter (get_assignments_step env cached)]
    intro st c hc
    simp [get_assignments_step, hc]
  · unfold get_assignment_stats_loop
    rw [foldl_skip_filter (assignment_stats_step env cached)]
    intro st c hc
    simp [assignment_stats_step, hc]
  · unfold get_attendance_percentage_loop
    rw [foldl_skip_filter (attendance_stats_step env cached)]
    intro st c hc
    simp [attendance_stats_step, hc]

/-- C3 counterexample: the gradebook column listing fetch fails with an
APIError, yet `get_course_assignments` returns the empty list normally
instead of propagating the error. -/
theorem get_course_assignments_counterexample :
    envFail.getGradebookColumnsV2 ("_123_1".toList) = .error colErr ∧
    get_course_assignments envFail none ("_123_1".toList) = [] :=
  ⟨rfl, rfl⟩

/-- C3 (amended): when the gradebook column listing fetch for a course
fails with an APIError, `get_course_assignments` swallows the error and
returns the empty list — it degrades instead of propagating. -/
theorem get_course_assignments_amended (env : ClientEnv) (cached : Option CachedData)
    (course_id : Str) (e : BBAPIError)
    (h : env.getGradebookColumnsV2 course_id = .error e) :
    get_course_assignments env cached course_id = [] := by
  unfold get_course_assignments
  rw [h]

/-- Witness for the amended C3 claim at the concrete failing environment. -/
theorem get_course_assignments_amended_witness :
    get_course_assignments envFail none ("_123_1".toList) = [] :=
  get_course_assignments_amended envFail none ("_123_1".toList) colErr rfl

theorem rat_floor_eq_intFloor (q : ℚ) : q.floor = ⌊q⌋ := by
  rw [Rat.floor_def', Rat.floor_def]

theorem roundHalfEven_intCast (n : ℤ) : roundHalfEven ((n : ℤ) : ℚ) = n := by
  unfold roundHalfEven
  rw [rat_floor_eq_intFloor, Int.floor_intCast]
  norm_num

/-- Evaluation rule for `pyRound2` when 100 times the argument is an
integer. -/
theorem pyRound2_eq (q : ℚ) (n : ℤ) (h : q * 100 = (n : ℚ)) :
    pyRound2 q = (n : ℚ) / 100 := by
  unfold pyRound2
  rw [h, roundHalfEven_intCast]

theorem pyRound2_zero : pyRound2 0 = 0 := by
  rw [pyRound2_eq 0 0 (by norm_num)]
  norm_num

/-- The overall on-time rate is the rounded ratio of the summed counters,
and exactly 0 when the overall total is 0. -/
theorem overall_rate_eq (env : ClientEnv) (cached : Option CachedData) :
    (get_assignment_stats env cached).on_time_rate =
      if 0 < (get_assignment_stats env cached).total then
        pyRound2 (((get_assignment_stats env cached).on_time : ℚ) /
          ((get_assignment_stats env cached).total : ℚ))
      else 0 := by
  cases cached with
  | none => simp [get_assignment_stats]
  | some cd =>
    show (get_assignment_stats_loop env (some cd) cd.courses).on_time_rate = _
    unfold get_assignment_stats get_assignment_stats_loop
    by_cases h : 0 <
        (cd.courses.foldl (assignment_stats_step env (some cd)) ⟨[], 0, 0, 0, 0, 0, 0⟩).total
    · simp [h]
    · simp [h, pyRound2_zero]

/-- The overall attendance percentage is the rounded ratio of the summed
counters times 100, and exactly 0 when the overall total is 0. -/
theorem overall_pct_eq (env : ClientEnv) (cached : Option CachedData) :
    (get_attendance_percentage env cached).percentage =
      if 0 < (get_attendance_percentage env cached).total then
        pyRound2 (((get_attendance_percentage env cached).present : ℚ) /
          ((get_attendance_percentage env cached).total : ℚ) * 100)
      else 0 := by
  cases cached with
  | none => simp [get_attendance_percentage]
  | some cd =>
    show (get_attendance_percentage_loop env (some cd) cd.courses).percentage = _
    unfold get_attendance_percentage get_attendance_percentage_loop
    by_cases h : 0 <
        (cd.courses.foldl (attendance_stats_step env (some cd)) ⟨[], 0, 0, 0, 0⟩).total
    · simp [h]
    · simp [h, pyRound2_zero]

/-- The per-course attendance percentage is the rounded ratio of the
counters times 100, and exactly 0 when the meeting count is 0. -/
theorem course_pct_eq (env : ClientEnv) (cached : Option CachedData) (course_id : Str) :
    (get_course_attendance_percentage env cached course_id).percentage =
      if 0 < (get_course_attendance_percentage env cached course_id).total then
        pyRound2 (((get_course_attendance_percentage env cached course_id).present : ℚ) /
          ((get_course_attendance_percentage env cached course_id).total : ℚ) * 100)
      else 0 := by
  unfold get_course_attendance_percentage
  by_cases h : 0 < (env.courseAttendance course_id).length
  · simp [h]
  · simp [h, pyRound2_zero]

/-- C6: the overall `on_time_rate` is the overall on-time count over the
overall total rounded to 2 decimals and exactly 0 (not an error) when the
total is 0; `is_nerd` is the strict comparison of that rate with 0.45 (a
rate of exactly 0.45 gives `false`, 0.46 gives `true`) and `is_attending`
the strict comparison of the overall 0-100 attendance percentage with 60
(exactly 60 gives `false`). -/
theorem thresholds_claim (env : ClientEnv) (cached : Option CachedData) :
    ((get_assignment_stats env cached).on_time_rate =
      if 0 < (get_assignment_stats env cached).total then
        pyRound2 (((get_assignment_stats env cached).on_time : ℚ) /
          ((get_assignment_stats env cached).total : ℚ))
      else 0) ∧
    is_nerd env cached = decide ((get_assignment_stats env cached).on_time_rate > 0.45) ∧
    is_attending env cached =
      decide ((get_attendance_percentage env cached).percentage > 60) ∧
    (get_assignment_stats (mkAttEnv []) (some cdOne)).total = 0 ∧
    (get_assignment_stats (mkAttEnv []) (some cdOne)).on_time_rate = 0 ∧
    (get_assignment_stats (mkAssignEnv 9 11) (some cdOne)).on_time_rate = 0.45 ∧
    is_nerd (mkAssignEnv 9 11) (some cdOne) = false ∧
    (get_assignment_stats (mkAssignEnv 23 27) (some cdOne)).on_time_rate = 0.46 ∧
    is_nerd (mkAssignEnv 23 27) (some cdOne) = true ∧
    (get_attendance_percentage (mkAttEnv (List.replicate 3 (some ("present".toList)) ++
      List.replicate 2 (some ("absent".toList)))) (some cdOne)).percentage = 60 ∧
    is_attending (mkAttEnv (List.replicate 3 (some ("present".toList)) ++
      List.replicate 2 (some ("absent".toList)))) (some cdOne) = false ∧
    is_attending (mkAttEnv (List.replicate 4 (some ("present".toList)) ++
      List.replicate 1 (some ("absent".toList)))) (some cdOne) = true := by
  have hrate0 : (get_assignment_stats (mkAttEnv []) (some cdOne)).on_time_rate = 0 := by
    have ht : (get_assignment_stats (mkAttEnv []) (some cdOne)).total = 0 := by decide
    have h := overall_rate_eq (mkAttEnv []) (some cdOne)
    rw [ht] at h
    simpa using h
  have hrate45 : (get_assignment_stats (mkAssignEnv 9 11) (some cdOne)).on_time_rate
      = 0.45 := by
    have ht : (get_assignment_stats (mkAssignEnv 9 11) (some cdOne)).total = 20 := by decide
    have ho : (get_assignment_stats (mkAssignEnv 9 11) (some cdOne)).on_time = 9 := by decide
    have h := overall_rate_eq (mkAssignEnv 9 11) (some cdOne)
    rw [ht, ho, if_pos (by norm_num),
      pyRound2_eq _ 45 (by push_cast; norm_num)] at h
    rw [h]
    norm_num
  have hrate46 : (get_assignment_stats (mkAssignEnv 23 27) (some cdOne)).on_time_rate
      = 0.46 := by
    have ht : (get_assignment_stats (mkAssignEnv 23 27) (some cdOne)).total = 50 := by decide
    have ho : (get_assignment_stats (mkAssignEnv 23 27) (some cdOne)).on_time = 23 := by
      decide
    have h := overall_rate_eq (mkAssignEnv 23 27) (some cdOne)
    rw [ht, ho, if_pos (by norm_num),
      pyRound2_eq _ 46 (by push_cast; norm_num)] at h
    rw [h]
    norm_num
  have hpct60 : (get_attendance_percentage (mkAttEnv (List.replicate 3
      (some ("present".toList)) ++ List.replicate 2 (some ("absent".toList))))
      (some cdOne)).percentage = 60 := by
    have ht : (get_attendance_percentage (mkAttEnv (List.replicate 3
        (some ("present".toList)) ++ List.replicate 2 (some ("absent".toList))))
        (some cdOne)).total = 5 := by decide
    have hp : (get_attendance_percentage (mkAttEnv (List.replicate 3
        (some ("present".toList)) ++ List.replicate 2 (some ("absent".toList))))
        (some cdOne)).present = 3 := by decide
    have h := overall_pct_eq (mkAttEnv (List.replicate 3 (some ("present".toList)) ++
      List.replicate 2 (some ("absent".toList)))) (some cdOne)
    rw [ht, hp, if_pos (by norm_num),
      pyRound2_eq _ 6000 (by push_cast; norm_num)] at h
    rw [h]
    norm_num
  have hpct80 : (get_attendance_percentage (mkAttEnv (List.replicate 4
      (some ("present".toList)) ++ List.replicate 1 (some ("absent".toList))))
      (some cdOne)).percentage = 80 := by
    have ht : (get_attendance_percentage (mkAttEnv (List.replicate 4
        (some ("present".toList)) ++ List.replicate 1 (some ("absent".toList))))
        (some cdOne)).total = 5 := by decide
    have hp : (get_attendance_percentage (mkAttEnv (List.replicate 4
        (some ("present".toList)) ++ List.replicate 1 (some ("absent".toList))))
        (some cdOne)).present = 4 := by decide
    have h := overall_pct_eq (mkAttEnv (List.replicate 4 (some ("present".toList)) ++
      List.replicate 1 (some ("absent".toList)))) (some cdOne)
    rw [ht, hp, if_pos (by norm_num),
      pyRound2_eq _ 8000 (by push_cast; norm_num)] at h
    rw [h]
    norm_num
  refine ⟨overall_rate_eq env cached, rfl, rfl, by decide, hrate0, hrate45, ?_, hrate46,
    ?_, hpct60, ?_, ?_⟩
  · unfold is_nerd
    rw [hrate45]
    exact decide_eq_false (by norm_num)
  · unfold is_nerd
    rw [hrate46]
    exact decide_eq_true (by norm_num)
  · unfold is_attending
    rw [hpct60]
    exact decide_eq_false (by norm_num)
  · unfold is_attending
    rw [hpct80]
    exact decide_eq_true (by norm_num)

theorem present_not_absent (st : Option Str) (h : isPresentStatus st = true) :
    isAbsentStatus st = false := by
  have h2 : strLower (st.getD []) = "present".toList ∨
      strLower (st.getD []) = "late".toList ∨
      strLower (st.getD []) = "excused".toList := by
    unfold isPresentStatus at h
    simpa [Bool.or_eq_true, beq_iff_eq, or_assoc] using h
  unfold isAbsentStatus
  rcases h2 with h2 | h2 | h2 <;> rw [h2] <;> decide

theorem tallyAttendance_counts : ∀ (l : List (Option Str)) (pa : ℕ × ℕ),
    l.foldl tallyAttendance pa =
      (pa.1 + l.countP isPresentStatus, pa.2 + l.countP isAbsentStatus) := by
  intro l
  induction l with
  | nil => intro pa; simp
  | cons st rest ih =>
    intro pa
    rw [List.foldl_cons, ih (tallyAttendance pa st)]
    by_cases hp : isPresentStatus st = true
    · have ha := present_not_absent st hp
      simp only [tallyAttendance, hp, if_true, ha, Bool.false_eq_true, if_false,
        List.countP_cons, Prod.mk.injEq]
      omega
    · simp only [Bool.not_eq_true] at hp
      by_cases hb : isAbsentStatus st = true
      · simp only [tallyAttendance, hp, Bool.false_eq_true, if_false, hb, if_true,
          List.countP_cons, Prod.mk.injEq]
        omega
      · simp only [Bool.not_eq_true] at hb
        simp only [tallyAttendance, hp, hb, Bool.false_eq_true, if_false,
          List.countP_cons, Prod.mk.injEq]
        omega

/-- C7: in `get_course_attendance_percentage` a record counts as present
iff its lower-cased status is one of {present, late, excused}, as absent
iff it is `absent`, every record counts toward the total, the percentage is
the rounded present/total × 100 and exactly 0 when the total is 0; the
statuses [present, absent, present, unknown] over 4 meetings give 50. -/
theorem attendance_percentage_claim (env : ClientEnv) (cached : Option CachedData)
    (course_id : Str) :
    (get_course_attendance_percentage env cached course_id).present =
      (env.courseAttendance course_id).countP isPresentStatus ∧
    (get_course_attendance_percentage env cached course_id).absent =
      (env.courseAttendance course_id).countP isAbsentStatus ∧
    (get_course_attendance_percentage env cached course_id).total =
      (env.courseAttendance course_id).length ∧
    ((get_course_attendance_percentage env cached course_id).percentage =
      if 0 < (get_course_attendance_percentage env cached course_id).total then
        pyRound2 (((get_course_attendance_percentage env cached course_id).present : ℚ) /
          ((get_course_attendance_percentage env cached course_id).total : ℚ) * 100)
      else 0) ∧
    (get_course_attendance_percentage (mkAttEnv [some ("present".toList),
      some ("absent".toList), some ("present".toList), some ("unknown".toList)])
      none ("c".toList)).percentage = 50 := by
  have hcounts := tallyAttendance_counts (env.courseAttendance course_id) (0, 0)
  refine ⟨?_, ?_, ?_, course_pct_eq env cached course_id, ?_⟩
  · show ((env.courseAttendance course_id).foldl tallyAttendance (0, 0)).1 = _
    rw [hcounts]
    simp
  · show ((env.courseAttendance course_id).foldl tallyAttendance (0, 0)).2 = _
    rw [hcounts]
    simp
  · rfl
  · have ht : (get_course_attendance_percentage (mkAttEnv [some ("present".toList),
        some ("absent".toList), some ("present".toList), some ("unknown".toList)])
        none ("c".toList)).total = 4 := by decide
    have hp : (get_course_attendance_percentage (mkAttEnv [some ("present".toList),
        some ("absent".toList), some ("present".toList), some ("unknown".toList)])
        none ("c".toList)).present = 2 := by decide
    have h := course_pct_eq (mkAttEnv [some ("present".toList), some ("absent".toList),
      some ("present".toList), some ("unknown".toList)]) none ("c".toList)
    rw [ht, hp, if_pos (by norm_num),
      pyRound2_eq _ 5000 (by push_cast; norm_num)] at h
    rw [h]
    norm_num

theorem lookup_dictSet_self {V : Type} (k : String) (v : V) :
    ∀ d : List (String × V), (dictSet d k v).lookup k = some v := by
  intro d
  induction d with
  | nil => simp [dictSet, List.lookup]
  | cons kv rest ih =>
    obtain ⟨k1, v1⟩ := kv
    by_cases h : k1 = k
    · simp [dictSet, h, List.lookup]
    · simp only [dictSet, h, if_false]
      rw [List.lookup]
      have hbeq : (k == k1) = false := by
        rcases Bool.eq_false_or_eq_true (k == k1) with hb | hb
        · exact absurd (beq_iff_eq.mp hb).symm h
        · exact hb
      simp [hbeq, ih]

theorem lookup_dictSet_ne {V : Type} (k q : String) (v : V) (hne : q ≠ k) :
    ∀ d : List (String × V), (dictSet d k v).lookup q = d.lookup q := by
  intro d
  have hbeq : (q == k) = false := by
    rcases Bool.eq_false_or_eq_true (q == k) with hb | hb
    · exact absurd (beq_iff_eq.mp hb) hne
    · exact hb
  induction d with
  | nil => simp [dictSet, List.lookup, hbeq]
  | cons kv rest ih =>
    obtain ⟨k1, v1⟩ := kv
    by_cases h : k1 = k
    · subst h
      simp [dictSet, List.lookup, hbeq]
    · simp only [dictSet, h, if_false]
      rw [List.lookup, List.lookup]
      cases hqk1 : (q == k1) with
      | true => rfl
      | false => exact ih

/-- C5: the cookies-only refresh changes only the `cookies` value and the
`updated_at` timestamp of the stored JSON object; the value of every other
key — `user`, `courses`, `credentials`, prior metric fields — is returned
unchanged, and the two reassigned keys carry the new values. -/
theorem update_id_file_cookies_claim {V : Type} (id_data : List (String × V))
    (cookies ts : V) (k : String) (hk1 : k ≠ "cookies") (hk2 : k ≠ "updated_at") :
    (update_id_file_cookies id_data cookies ts).lookup k = id_data.lookup k ∧
    (update_id_file_cookies id_data cookies ts).lookup "cookies" = some cookies ∧
    (update_id_file_cookies id_data cookies ts).lookup "updated_at" = some ts := by
  refine ⟨?_, ?_, ?_⟩
  · unfold update_id_file_cookies
    rw [lookup_dictSet_ne "updated_at" k ts hk2, lookup_dictSet_ne "cookies" k cookies hk1]
  · unfold update_id_file_cookies
    rw [lookup_dictSet_ne "updated_at" "cookies" ts (by decide),
      lookup_dictSet_self "cookies" cookies]
  · unfold update_id_file_cookies
    rw [lookup_dictSet_self "updated_at" ts]

/-- Witness for C5 on a concrete stored object. -/
theorem update_id_file_cookies_claim_witness :
    (update_id_file_cookies [("user", "u"), ("courses", "c"), ("cookies", "old")]
      "new" "t").lookup "user" = some "u" ∧
    (update_id_file_cookies [("user", "u"), ("courses", "c"), ("cookies", "old")]
      "new" "t").lookup "cookies" = some "new" ∧
    (update_id_file_cookies [("user", "u"), ("courses", "c"), ("cookies", "old")]
      "new" "t").lookup "updated_at" = some "t" := by
  have h := update_id_file_cookies_claim
    [("user", "u"), ("courses", "c"), ("cookies", "old")] "new" "t" "user"
    (by decide) (by decide)
  have hu : ([("user", "u"), ("courses", "c"), ("cookies", "old")].lookup "user" :
      Option String) = some "u" := by decide
  exact ⟨h.1.trans hu, h.2.1, h.2.2⟩

/-- C10: `save_id_file` rebinds the caller-supplied username to the API
user record's `userName` before building the credentials block: the stored
credential username is always the upper-cased API `userName`, independent
of the caller's username argument, and when `userName` is absent or empty
the `credentials` field is omitted even if the caller supplied both a
username and a password. -/
theorem save_id_file_claim (now : Str) (session : List CookieRec)
    (user_data : UserData) (courses : List CourseInput)
    (instructors : List InstructorInput) (u1 u2 password : Option Str) :
    ((save_id_file now session user_data courses instructors u1 password).credentials =
      if truthyOptStr user_data.userName && truthyOptStr password then
        some { username := some (strUpper ((user_data.userName).getD [])),
               password := password }
      else none) ∧
    (save_id_file now session user_data courses instructors u1 password).credentials =
      (save_id_file now session user_data courses instructors u2 password).credentials ∧
    (save_id_file now session { user_data with userName := none } courses instructors
      u1 password).credentials = none ∧
    (save_id_file now session { user_data with userName := some [] } courses instructors
      u1 password).credentials = none := by
  refine ⟨?_, rfl, ?_, ?_⟩
  · cases huser : user_data.userName with
    | none => simp [save_id_file, huser, truthyOptStr]
    | some s =>
      by_cases hs : s.isEmpty = true
      · simp [save_id_file, huser, truthyOptStr, hs]
      · simp only [Bool.not_eq_true] at hs
        simp [save_id_file, huser, truthyOptStr, hs]
  · simp [save_id_file, truthyOptStr]
  · simp [save_id_file, truthyOptStr]

end BBpy
